import Mathlib

/-!
# dynamic-proxy: a shallow embedding of `main.go`

The Go program is a gin server with an admin surface (identifier → URL mappings kept in the
Firestore collection `proxy_mappings`, behind `basicAuthMiddleware`) and a catch-all proxy
route served by `proxyRequest`.

Modelling conventions.

* A Go `string` is a sequence of bytes: `GoString := List Nat`.  Source literals are written
  `str "..."` (their UTF-8 bytes).
* `http.Header` (`map[string][]string`) is an association list; the order of the list is the
  order in which `range` visits the map.
* The collaborators the program only calls (Firestore, `http.NewRequest`, `http.Client.Do`,
  `encoding/json`, `ShouldBindJSON`, the canonical form of header names) are fields of `Env`
  and `Firestore`, so every general theorem holds for all of their behaviours.
* Handlers are state passing: they take the `Context` (and the store) and return the new one;
  `proxyRequest` also returns the trace of the calls it made to `http.NewRequest` and
  `client.Do`.
-/

namespace DynamicProxy

/-! ## Strings -/

/-- A Go string: a sequence of bytes. -/
abbrev GoString := List Nat

/-- UTF-8 bytes of one code point. -/
def utf8EncodeChar (c : Char) : List Nat :=
  let n := c.toNat
  if n < 0x80 then [n]
  else if n < 0x800 then [0xC0 + n / 64, 0x80 + n % 64]
  else if n < 0x10000 then [0xE0 + n / 4096, 0x80 + n / 64 % 64, 0x80 + n % 64]
  else [0xF0 + n / 262144, 0x80 + n / 4096 % 64, 0x80 + n / 64 % 64, 0x80 + n % 64]

/-- The bytes of a source literal. -/
def str (s : String) : GoString :=
  s.toList.flatMap utf8EncodeChar

/-- Go `strings.HasPrefix`. -/
def HasPrefix : GoString → GoString → Bool
  | _, [] => true
  | [], _ :: _ => false
  | a :: s, b :: p => a == b && HasPrefix s p

/-- Go `strings.TrimPrefix`: `s` without the leading `prefix`, or `s` itself. -/
def TrimPrefix (s pre : GoString) : GoString :=
  if HasPrefix s pre then s.drop pre.length else s

/-- Go `strings.Cut` for a one-byte separator: the text before and after its first occurrence. -/
def Cut (sep : Nat) : GoString → Option (GoString × GoString)
  | [] => none
  | a :: s =>
    if a = sep then some ([], s)
    else match Cut sep s with
      | none => none
      | some (before, after) => some (a :: before, after)

/-- Go `strings.SplitN(s, sep, n)` for a one-byte separator and `n ≥ 0`: at most `n` pieces,
the last one being the unsplit remainder. -/
def SplitN (s : GoString) (sep : Nat) : Nat → List GoString
  | 0 => []
  | 1 => [s]
  | n + 2 =>
    match Cut sep s with
    | none => [s]
    | some (before, after) => before :: SplitN after sep (n + 1)

/-! ## `encoding/base64`, `StdEncoding.DecodeString` -/

/-- The decode map of the standard alphabet: the 6-bit value of an alphabet byte. -/
def decodeMap (c : Nat) : Option Nat :=
  if 65 ≤ c ∧ c ≤ 90 then some (c - 65)
  else if 97 ≤ c ∧ c ≤ 122 then some (c - 71)
  else if 48 ≤ c ∧ c ≤ 57 then some (c + 4)
  else if c = 43 then some 62
  else if c = 47 then some 63
  else none

/-- Skip over `\r` and `\n`. -/
def skipNewlines : GoString → GoString
  | [] => []
  | c :: s => if c = 10 ∨ c = 13 then skipNewlines s else c :: s

/-- The bytes of a quantum: four 6-bit values packed into 24 bits, of which the first
`dlen - 1` bytes are kept (`dbuf` holds the `dlen` values read, missing ones count as 0). -/
def quantumBytes (dbuf : List Nat) : List Nat :=
  let val := dbuf.getD 0 0 * 262144 + dbuf.getD 1 0 * 4096 + dbuf.getD 2 0 * 64 + dbuf.getD 3 0
  [val / 65536 % 256, val / 256 % 256, val % 256].take (dbuf.length - 1)

/-- The decoding loop of `Encoding.Decode` for `StdEncoding` (padding `=`, not strict):
`dbuf` holds the values of the current quantum, `out` the bytes decoded so far.  `\r` and
`\n` are skipped, padding closes the input, an input that ends inside a quantum is corrupt. -/
def decodeLoop : GoString → List Nat → List Nat → Option (List Nat)
  | [], dbuf, out => if dbuf = [] then some out else none
  | c :: src, dbuf, out =>
    match decodeMap c with
    | some v =>
      if dbuf.length = 3 then decodeLoop src [] (out ++ quantumBytes (dbuf ++ [v]))
      else decodeLoop src (dbuf ++ [v]) out
    | none =>
      if c = 10 ∨ c = 13 then decodeLoop src dbuf out
      else if c ≠ 61 then none
      else
        match dbuf.length with
        | 0 => none
        | 1 => none
        | 2 =>
          match skipNewlines src with
          | [] => none
          | c2 :: rest =>
            if c2 ≠ 61 then none
            else if skipNewlines rest = [] then some (out ++ quantumBytes dbuf)
            else none
        | _ =>
          if skipNewlines src = [] then some (out ++ quantumBytes dbuf) else none

/-- Go `base64.StdEncoding.DecodeString`: the decoded bytes, or `none` for the error. -/
def DecodeString (s : GoString) : Option GoString :=
  decodeLoop s [] []

/-! ## `net/http` and gin data -/

/-- Go `http.Header`, a `map[string][]string`: each name with its list of values. -/
abbrev Header := List (GoString × List GoString)

/-- The map index `h[key]`: the values stored under `key`, `nil` when the key is absent. -/
def Header.index : Header → GoString → List GoString
  | [], _ => []
  | (k, vs) :: t, key => if k = key then vs else Header.index t key

/-- The map update `h[key] = append(h[key], value)`. -/
def Header.push : Header → GoString → GoString → Header
  | [], key, value => [(key, [value])]
  | (k, vs) :: t, key, value =>
    if k = key then (k, vs ++ [value]) :: t else (k, vs) :: Header.push t key value

/-- The map update `h[key] = []string{value}`. -/
def Header.assign : Header → GoString → GoString → Header
  | [], key, value => [(key, [value])]
  | (k, vs) :: t, key, value =>
    if k = key then (k, [value]) :: t else (k, vs) :: Header.assign t key value

/-- The names of a header map. -/
def Header.keys (h : Header) : List GoString :=
  h.map Prod.fst

/-- Go `Header.Add`: append `value` under the canonical form of `key`. -/
def Header.Add (canon : GoString → GoString) (h : Header) (key value : GoString) : Header :=
  Header.push h (canon key) value

/-- Go `Header.Set`: replace the values under the canonical form of `key`. -/
def Header.Set (canon : GoString → GoString) (h : Header) (key value : GoString) : Header :=
  Header.assign h (canon key) value

/-- Go `Header.Get`: the first value under the canonical form of `key`, or `""`. -/
def Header.Get (canon : GoString → GoString) (h : Header) (key : GoString) : GoString :=
  (Header.index h (canon key)).headD []

/-- The stored entity (`type ProxyMapping struct`). -/
structure ProxyMapping where
  ID : GoString
  URL : GoString
deriving DecidableEq, Repr

/-- An `io.ReadCloser`: the chunks successive reads deliver, then EOF (`err = false`) or a
read error (`err = true`). -/
structure Body where
  chunks : List GoString
  err : Bool
deriving DecidableEq, Repr

/-- The parsed URL of an inbound request (`c.Request.URL`): the path and the raw query, the
text after `?`, which is not part of the path. -/
structure URL where
  Path : GoString
  RawQuery : GoString
deriving DecidableEq, Repr

/-- The inbound `http.Request` held by the gin context. -/
structure Request where
  Method : GoString
  URL : URL
  Header : Header
  Body : Body
deriving DecidableEq, Repr

/-- The outbound `http.Request` built by `http.NewRequest`; `URL` is the string it was
built from. -/
structure OutboundRequest where
  Method : GoString
  URL : GoString
  Header : Header
  Body : Body
deriving DecidableEq, Repr

/-- The `http.Response` of the backend. -/
structure Response where
  StatusCode : Int
  Header : Header
  Body : Body
deriving DecidableEq, Repr

/-- What `c.JSON` is asked to render. -/
inductive JSONValue where
  /-- The value `gin.H{key: value}`. -/
  | H (key : String) (value : GoString)
  /-- A `ProxyMapping`. -/
  | mapping (m : ProxyMapping)
deriving DecidableEq, Repr

/-- The response being written to the inbound caller (`c.Writer`). -/
structure ResponseWriter where
  status : Int
  header : Header
  body : GoString
deriving DecidableEq, Repr

/-- The gin context of one inbound request. -/
structure Context where
  Request : Request
  Params : List (String × GoString)
  Writer : ResponseWriter
  aborted : Bool
deriving DecidableEq, Repr

/-- The library collaborators of the handlers. -/
structure Env where
  /-- The canonical form of a header name (`textproto.CanonicalMIMEHeaderKey`). -/
  CanonicalMIMEHeaderKey : GoString → GoString
  /-- Whether `http.NewRequest(method, url, _)` returns an error. -/
  NewRequestErr : GoString → GoString → Bool
  /-- The call `client.Do(req)`: the backend response, or `none` for a transport error. -/
  Do : OutboundRequest → Option Response
  /-- The JSON rendering of a value. -/
  Marshal : JSONValue → GoString
  /-- The call `c.ShouldBindJSON(&mapping)` on a request body: the bound mapping or the
  error text. -/
  ShouldBindJSON : Body → Except GoString ProxyMapping

/-- A fresh response writer: nothing written, status 200. -/
def ResponseWriter.fresh : ResponseWriter :=
  { status := 200, header := [], body := [] }

/-- The call `c.Param(key)`: the value of the route parameter, `""` when there is none. -/
def Context.Param (c : Context) (key : String) : GoString :=
  match c.Params.lookup key with
  | some v => v
  | none => []

/-- The call `c.GetHeader(key)`. -/
def Context.GetHeader (env : Env) (c : Context) (key : GoString) : GoString :=
  Header.Get env.CanonicalMIMEHeaderKey c.Request.Header key

/-- The call `c.Header(key, value)` with a non-empty value: set a response header. -/
def Context.Header (env : Env) (c : Context) (key value : GoString) : Context :=
  { c with Writer := { c.Writer with
      header := Header.Set env.CanonicalMIMEHeaderKey c.Writer.header key value } }

/-- The call `c.JSON(code, obj)`: status `code`, the JSON content type unless one is set, and
the rendering of `obj` appended to the body. -/
def Context.JSON (env : Env) (c : Context) (code : Int) (obj : JSONValue) : Context :=
  { c with Writer :=
    { status := code
      header :=
        if Header.index c.Writer.header (str "Content-Type") = [] then
          Header.assign c.Writer.header (str "Content-Type")
            (str "application/json; charset=utf-8")
        else c.Writer.header
      body := c.Writer.body ++ env.Marshal obj } }

/-- The call `c.Abort()`: no later handler of the chain runs. -/
def Context.Abort (c : Context) : Context :=
  { c with aborted := true }

/-- Go `http.NewRequest(method, url, body)`: an error, or a request with that method, URL
and body and an empty header.  (The method of a served request is never empty; net/http
would read an empty method as `GET`, which is left out here.) -/
def NewRequest (env : Env) (method url : GoString) (body : Body) : Option OutboundRequest :=
  if env.NewRequestErr method url then none
  else some { Method := method, URL := url, Header := [], Body := body }

/-- The call `w.WriteHeader(code)` of gin's response writer, on a writer to which no byte
has been written yet (as when `proxyRequest` calls it): a code that is not positive is
ignored, any other becomes the pending status. -/
def ResponseWriter.WriteHeader (w : ResponseWriter) (code : Int) : ResponseWriter :=
  if 0 < code then { w with status := code } else w

/-- Go `bodyAllowedForStatus` of net/http: the statuses 1xx, 204 and 304 carry no body. -/
def bodyAllowedForStatus (status : Int) : Bool :=
  if 100 ≤ status ∧ status ≤ 199 then false
  else if status = 204 then false
  else if status = 304 then false
  else true

/-- How a write to the response writer fails. -/
inductive WriteError where
  /-- The panic of net/http on a status outside `100 .. 999` (`invalid WriteHeader code`). -/
  | panic
  /-- The error `http.ErrBodyNotAllowed`: the status sent allows no body. -/
  | bodyNotAllowed
deriving DecidableEq, Repr

/-- The call `w.Write(data)` with bytes to write: the header goes out with the pending
status before the bytes, and net/http panics on a status outside `100 .. 999`; a status
that allows no body makes the write return an error; otherwise the bytes are appended to
the body. -/
def ResponseWriter.Write (w : ResponseWriter) (data : GoString) :
    Except WriteError ResponseWriter :=
  if w.status < 100 ∨ 999 < w.status then .error .panic
  else if bodyAllowedForStatus w.status then .ok { w with body := w.body ++ data }
  else .error .bodyNotAllowed

/-- The two nested `range` loops that copy a header map with `Add`. -/
def copyHeader (canon : GoString → GoString) (src dst : Header) : Header :=
  src.foldl (fun acc kv => kv.2.foldl (fun acc value => Header.Add canon acc kv.1 value) acc) dst

/-- The write loop of Go `io.Copy(c.Writer, body)` over the chunks read: every chunk that
holds bytes is written, in order, until a write fails; the result is the writer and the
failure, if any. -/
def ioCopy : ResponseWriter → List GoString → ResponseWriter × Option WriteError
  | w, [] => (w, none)
  | w, chunk :: rest =>
    if chunk = [] then ioCopy w rest
    else match w.Write chunk with
      | .error e => (w, some e)
      | .ok w1 => ioCopy w1 rest

/-! ## The Firestore collection `proxy_mappings` -/

/-- A stored document as `doc.DataTo(&mapping)` sees it: the value it leaves in `mapping`
and whether it returns an error (a field of the wrong type). -/
structure DocumentSnapshot where
  decoded : ProxyMapping
  dataToErr : Bool
deriving DecidableEq, Repr

/-- Why a store call failed. -/
inductive StoreError where
  /-- No document with that identifier. -/
  | notFound
  /-- The call itself failed (connectivity, permissions). -/
  | unavailable
deriving DecidableEq, Repr

deriving instance DecidableEq for Except

/-- The collection: the documents by identifier, and for which identifiers a call fails. -/
structure Firestore where
  docs : GoString → Option DocumentSnapshot
  rpcErr : GoString → Bool

/-- The call `Doc(id).Get(ctx)`: an error when the call fails or no document exists. -/
def Firestore.Get (fs : Firestore) (id : GoString) : Except StoreError DocumentSnapshot :=
  if fs.rpcErr id then .error .unavailable
  else match fs.docs id with
    | none => .error .notFound
    | some doc => .ok doc

/-- The call `Doc(id).Set(ctx, mapping)`: overwrite the document with the struct. -/
def Firestore.Set (fs : Firestore) (id : GoString) (m : ProxyMapping) :
    Except StoreError Firestore :=
  if fs.rpcErr id then .error .unavailable
  else .ok { fs with docs := fun k => if k = id then some ⟨m, false⟩ else fs.docs k }

/-- The call `Doc(id).Delete(ctx)`: remove the document. -/
def Firestore.Delete (fs : Firestore) (id : GoString) : Except StoreError Firestore :=
  if fs.rpcErr id then .error .unavailable
  else .ok { fs with docs := fun k => if k = id then none else fs.docs k }

/-- The call `doc.DataTo(&mapping)`: the new value of `mapping` and the error flag. -/
def DocumentSnapshot.DataTo (doc : DocumentSnapshot) (_mapping : ProxyMapping) :
    ProxyMapping × Bool :=
  (doc.decoded, doc.dataToErr)

/-! ## The handlers of `main.go` -/

/-- A gin handler: it may use the store and writes to the context. -/
abbrev Handler := Firestore → Context → Firestore × Context

/-- The Go function `basicAuthMiddleware`; `adminUsername` and `adminPassword` are the two
package variables read from the environment, `next` is the rest of the handler chain, run
by `c.Next()`. -/
def basicAuthMiddleware (env : Env) (adminUsername adminPassword : GoString)
    (next : Handler) : Handler := fun fs c =>
  let authHeader := c.GetHeader env (str "Authorization")
  if authHeader = [] then
    let c := c.Header env (str "WWW-Authenticate") (str "Basic realm=\"Restricted\"")
    let c := c.JSON env 401 (.H "error" (str "Unauthorized"))
    (fs, c.Abort)
  else
    -- Decode the Base64-encoded credentials
    let payload := TrimPrefix authHeader (str "Basic ")
    match DecodeString payload with
    | none =>
      let c := c.JSON env 401 (.H "error" (str "Invalid authentication"))
      (fs, c.Abort)
    | some decoded =>
      -- Check if the username and password are correct
      let credentials := SplitN decoded 58 2
      if credentials.length ≠ 2 ∨ credentials.getD 0 [] ≠ adminUsername
          ∨ credentials.getD 1 [] ≠ adminPassword then
        let c := c.Header env (str "WWW-Authenticate") (str "Basic realm=\"Restricted\"")
        let c := c.JSON env 401 (.H "error" (str "Unauthorized"))
        (fs, c.Abort)
      else
        -- Proceed to the next handler
        next fs c

/-- The Go function `createMappingAPI`. -/
def createMappingAPI (env : Env) : Handler := fun fs c =>
  match env.ShouldBindJSON c.Request.Body with
  | .error e => (fs, c.JSON env 400 (.H "error" e))
  | .ok mapping =>
    match fs.Set mapping.ID mapping with
    | .error _ => (fs, c.JSON env 500 (.H "error" (str "Failed to create mapping")))
    | .ok fs1 => (fs1, c.JSON env 200 (.mapping mapping))

/-- The Go function `updateMappingAPI`. -/
def updateMappingAPI (env : Env) : Handler := fun fs c =>
  let id := c.Param "id"
  match env.ShouldBindJSON c.Request.Body with
  | .error e => (fs, c.JSON env 400 (.H "error" e))
  | .ok mapping =>
    match fs.Set id mapping with
    | .error _ => (fs, c.JSON env 500 (.H "error" (str "Failed to update mapping")))
    | .ok fs1 => (fs1, c.JSON env 200 (.mapping mapping))

/-- The Go function `deleteMappingAPI`. -/
def deleteMappingAPI (env : Env) : Handler := fun fs c =>
  let id := c.Param "id"
  match fs.Delete id with
  | .error _ => (fs, c.JSON env 500 (.H "error" (str "Failed to delete mapping")))
  | .ok fs1 => (fs1, c.JSON env 200 (.H "status" (str "deleted")))

/-- A call `proxyRequest` makes to the HTTP client library. -/
inductive Event where
  /-- The call `http.NewRequest(method, url, _)`. -/
  | newRequest (method url : GoString)
  /-- The call `client.Do(req)`: one outbound request. -/
  | clientDo (req : OutboundRequest)
deriving DecidableEq, Repr

/-- The result of `proxyRequest`: the context with the response written, the client calls
made, in order, the lines logged, and whether the handler was left by a panic of the
response writer instead of returning. -/
structure Outcome where
  c : Context
  events : List Event
  log : List String
  panicked : Bool
deriving DecidableEq, Repr

/-- The outbound requests of a trace: the arguments of its `client.Do` calls. -/
def outbound : List Event → List OutboundRequest
  | [] => []
  | .clientDo req :: t => req :: outbound t
  | .newRequest _ _ :: t => outbound t

/-- The Go function `proxyRequest`. -/
def proxyRequest (env : Env) (fs : Firestore) (c : Context) : Outcome :=
  let id := c.Param "id"
  let path := c.Param "path"
  -- Retrieve the URL mapping from Firestore
  match fs.Get id with
  | .error _ => ⟨c.JSON env 404 (.H "error" (str "Mapping not found")), [], [], false⟩
  | .ok doc =>
    let mapping := (doc.DataTo { ID := [], URL := [] }).1
    -- Forward the request
    let backendURL := mapping.URL ++ path
    match NewRequest env c.Request.Method backendURL c.Request.Body with
    | none =>
      ⟨c.JSON env 500 (.H "error" (str "Failed to create request")),
        [.newRequest c.Request.Method backendURL], [], false⟩
    | some req =>
      -- Copy headers
      let req := { req with
        Header := copyHeader env.CanonicalMIMEHeaderKey c.Request.Header req.Header }
      match env.Do req with
      | none =>
        ⟨c.JSON env 500 (.H "error" (str "Failed to forward request")),
          [.newRequest c.Request.Method backendURL, .clientDo req], [], false⟩
      | some resp =>
        -- Copy response headers and body
        let w := { c.Writer with
          header := copyHeader env.CanonicalMIMEHeaderKey resp.Header c.Writer.header }
        let w := w.WriteHeader resp.StatusCode
        -- Copy response body
        match ioCopy w resp.Body.chunks with
        | (w1, some .panic) =>
          ⟨{ c with Writer := w1 },
            [.newRequest c.Request.Method backendURL, .clientDo req], [], true⟩
        | (w1, some .bodyNotAllowed) =>
          ⟨{ c with Writer := w1 },
            [.newRequest c.Request.Method backendURL, .clientDo req],
            ["Failed to write response body"], false⟩
        | (w1, none) =>
          ⟨{ c with Writer := w1 },
            [.newRequest c.Request.Method backendURL, .clientDo req],
            if resp.Body.err then ["Failed to write response body"] else [], false⟩

/-! ## The routes of `main` -/

/-- The admin group `router.Group("/admin", basicAuthMiddleware)`: a handler of the group
runs behind the middleware, on a fresh writer. -/
def serveAdmin (env : Env) (adminUsername adminPassword : GoString) (handler : Handler)
    (fs : Firestore) (r : Request) (params : List (String × GoString)) : Firestore × Context :=
  basicAuthMiddleware env adminUsername adminPassword handler fs
    { Request := r, Params := params, Writer := ResponseWriter.fresh, aborted := false }

/-! ## Library behaviour used for concrete runs -/

/-- Go `validHeaderFieldByte`: the bytes of an HTTP token. -/
def isTokenByte (c : Nat) : Bool :=
  (48 ≤ c && c ≤ 57) || (65 ≤ c && c ≤ 90) || (97 ≤ c && c ≤ 122) ||
    c ∈ [33, 35, 36, 37, 38, 39, 42, 43, 45, 46, 94, 95, 96, 124, 126]

/-- The casing pass of `textproto.CanonicalMIMEHeaderKey`: upper case at the start and after
`-`, lower case elsewhere. -/
def canonicalCase : Bool → GoString → GoString
  | _, [] => []
  | upper, c :: s =>
    let c1 :=
      if upper ∧ 97 ≤ c ∧ c ≤ 122 then c - 32
      else if ¬upper ∧ 65 ≤ c ∧ c ≤ 90 then c + 32
      else c
    c1 :: canonicalCase (c1 = 45) s

/-- Go `textproto.CanonicalMIMEHeaderKey`: a name with a byte that is not a token byte is
returned unchanged. -/
def CanonicalMIMEHeaderKey (s : GoString) : GoString :=
  if s.all isTokenByte then canonicalCase true s else s

/-- Go `validMethod`: a non-empty token. -/
def validMethod (method : GoString) : Bool :=
  method ≠ [] && method.all isTokenByte

/-- Go `stringContainsCTLByte`: some byte is an ASCII control character. -/
def stringContainsCTLByte (s : GoString) : Bool :=
  s.any (fun b => b < 32 || b = 127)

/-- Two of the checks of `http.NewRequest`: the method has to be a token, and `url.Parse`
rejects a URL with a control character. -/
def goNewRequestErr (method url : GoString) : Bool :=
  !validMethod method || stringContainsCTLByte url

/-- The rendering of `encoding/json` for values whose strings need no escaping. -/
def marshalPlain : JSONValue → GoString
  | .H key value => str "\x7b\"" ++ str key ++ str "\":\"" ++ value ++ str "\"\x7d"
  | .mapping m =>
    str "\x7b\"id\":\"" ++ m.ID ++ str "\",\"url\":\"" ++ m.URL ++ str "\"\x7d"

/-- An environment with the Go library checks above, a given backend behind `client.Do`, and
no JSON body binding. -/
def goEnv (backend : OutboundRequest → Option Response) : Env :=
  { CanonicalMIMEHeaderKey := CanonicalMIMEHeaderKey
    NewRequestErr := goNewRequestErr
    Do := backend
    Marshal := marshalPlain
    ShouldBindJSON := fun _ => .error (str "EOF") }

/-- A store holding exactly one well-typed mapping, every call succeeding. -/
def singleStore (id url : GoString) : Firestore :=
  { docs := fun k => if k = id then some ⟨{ ID := id, URL := url }, false⟩ else none
    rpcErr := fun _ => false }

/-- An inbound request without headers and with an empty body. -/
def plainRequest (method path query : GoString) : Request :=
  { Method := method, URL := { Path := path, RawQuery := query }, Header := [],
    Body := { chunks := [], err := false } }

/-- A backend that answers every request with `200` and the body `ok`. -/
def okBackend : OutboundRequest → Option Response :=
  fun _ => some { StatusCode := 200, Header := [(str "Content-Type", [str "text/plain"])],
                  Body := { chunks := [str "ok"], err := false } }

/-- A backend that cannot be reached. -/
def downBackend : OutboundRequest → Option Response :=
  fun _ => none

/-- The request `proxyRequest` hands to `client.Do` once `http.NewRequest` has accepted the
method of `c` and `backendURL`: the inbound method and body, and the inbound headers copied
onto the empty header of the new request. -/
def forwarded (env : Env) (c : Context) (backendURL : GoString) : OutboundRequest :=
  { Method := c.Request.Method, URL := backendURL,
    Header := copyHeader env.CanonicalMIMEHeaderKey c.Request.Header [],
    Body := c.Request.Body }

/-- The context in which `proxyRequest` runs for route parameters `id` and `path`, on a
fresh writer. -/
def proxyContext (r : Request) (id path : GoString) : Context :=
  { Request := r, Params := [("id", id), ("path", path)], Writer := ResponseWriter.fresh,
    aborted := false }

/-! ## Inputs of the concrete runs -/

/-- The store of the running example: `svc1 ↦ http://backend.internal:9000`. -/
def svc1Store : Firestore :=
  singleStore (str "svc1") (str "http://backend.internal:9000")

/-- An inbound `GET /svc1/api` with two `Accept` values and one `X-Request-Id`. -/
def acceptTwice : Request :=
  { Method := str "GET", URL := { Path := str "/svc1/api", RawQuery := [] },
    Header := [(str "Accept", [str "text/html", str "application/json"]),
               (str "X-Request-Id", [str "7"])],
    Body := { chunks := [], err := false } }

/-- A backend that answers 201 with two `Set-Cookie` values and a body of two chunks. -/
def cookieBackend : OutboundRequest → Option Response :=
  fun _ => some { StatusCode := 201,
                  Header := [(str "Set-Cookie", [str "a=1", str "b=2"])],
                  Body := { chunks := [str "he", str "llo"], err := false } }

/-- A backend that answers with the status `s` and the body `ok`. -/
def statusBackend (s : Int) : OutboundRequest → Option Response :=
  fun _ => some { StatusCode := s, Header := [],
                  Body := { chunks := [str "ok"], err := false } }

/-- A backend that switches protocols: status 101 with the upgrade headers, followed by
the bytes `ok`. -/
def upgradeBackend : OutboundRequest → Option Response :=
  fun _ => some { StatusCode := 101,
                  Header := [(str "Connection", [str "Upgrade"]),
                             (str "Upgrade", [str "websocket"])],
                  Body := { chunks := [str "ok"], err := false } }

/-- A store whose document `svc1` does not deserialize: `DataTo` returns an error and
leaves the mapping empty (its `URL` field is not a string). -/
def illTypedStore : Firestore :=
  { docs := fun k => if k = str "svc1" then some ⟨{ ID := [], URL := [] }, true⟩ else none
    rpcErr := fun _ => false }

/-- The store of the running example while it cannot be reached: every call fails. -/
def downStore : Firestore :=
  { svc1Store with rpcErr := fun _ => true }

/-- A stand-in for JSON binding in concrete runs: a body of exactly two chunks binds to the
mapping with the first as `id` and the second as `url`. -/
def bindChunks (body : Body) : Except GoString ProxyMapping :=
  match body.chunks with
  | [id, url] => .ok { ID := id, URL := url }
  | _ => .error (str "invalid request")

/-- The environment `goEnv` with `bindChunks` for the request bodies of the admin API. -/
def adminEnv (backend : OutboundRequest → Option Response) : Env :=
  { goEnv backend with ShouldBindJSON := bindChunks }

/-- An admin request context: route parameter `id` and a body binding to `{id2, url}`. -/
def adminContext (method id id2 url : GoString) : Context :=
  { Request := { Method := method, URL := { Path := str "/admin/mappings", RawQuery := [] },
                 Header := [], Body := { chunks := [id2, url], err := false } },
    Params := [("id", id)], Writer := ResponseWriter.fresh, aborted := false }

/-- An admin request `DELETE /admin/mappings/svc1` carrying the `Authorization` header
`h`. -/
def authRequest (h : GoString) : Request :=
  { Method := str "DELETE", URL := { Path := str "/admin/mappings/svc1", RawQuery := [] },
    Header := [(str "Authorization", [h])], Body := { chunks := [], err := false } }

/-! ## Resolution and forwarding -/

theorem proxyRequest_of_get_error (env : Env) (fs : Firestore) (c : Context) (e : StoreError)
    (hget : fs.Get (c.Param "id") = .error e) :
    proxyRequest env fs c
      = ⟨c.JSON env 404 (.H "error" (str "Mapping not found")), [], [], false⟩ := by
  simp [proxyRequest, hget]

theorem proxyRequest_of_newRequest_error (env : Env) (fs : Firestore) (c : Context)
    (doc : DocumentSnapshot) (hget : fs.Get (c.Param "id") = .ok doc)
    (hnew : env.NewRequestErr c.Request.Method (doc.decoded.URL ++ c.Param "path") = true) :
    proxyRequest env fs c
      = ⟨c.JSON env 500 (.H "error" (str "Failed to create request")),
          [.newRequest c.Request.Method (doc.decoded.URL ++ c.Param "path")], [], false⟩ := by
  simp [proxyRequest, hget, NewRequest, hnew, DocumentSnapshot.DataTo]

theorem proxyRequest_of_do_error (env : Env) (fs : Firestore) (c : Context)
    (doc : DocumentSnapshot) (hget : fs.Get (c.Param "id") = .ok doc)
    (hnew : env.NewRequestErr c.Request.Method (doc.decoded.URL ++ c.Param "path") = false)
    (hdo : env.Do (forwarded env c (doc.decoded.URL ++ c.Param "path")) = none) :
    proxyRequest env fs c
      = ⟨c.JSON env 500 (.H "error" (str "Failed to forward request")),
          [.newRequest c.Request.Method (doc.decoded.URL ++ c.Param "path"),
            .clientDo (forwarded env c (doc.decoded.URL ++ c.Param "path"))], [], false⟩ := by
  simp only [forwarded] at hdo
  simp [proxyRequest, hget, NewRequest, hnew, DocumentSnapshot.DataTo, hdo, forwarded]

theorem proxyRequest_events_of_newRequest_ok (env : Env) (fs : Firestore) (c : Context)
    (doc : DocumentSnapshot) (hget : fs.Get (c.Param "id") = .ok doc)
    (hnew : env.NewRequestErr c.Request.Method (doc.decoded.URL ++ c.Param "path") = false) :
    (proxyRequest env fs c).events
      = [.newRequest c.Request.Method (doc.decoded.URL ++ c.Param "path"),
          .clientDo (forwarded env c (doc.decoded.URL ++ c.Param "path"))] := by
  cases hdo : env.Do (forwarded env c (doc.decoded.URL ++ c.Param "path")) with
  | none => rw [proxyRequest_of_do_error env fs c doc hget hnew hdo]
  | some resp =>
    simp only [forwarded] at hdo
    simp only [proxyRequest, hget, NewRequest, hnew, DocumentSnapshot.DataTo, hdo, forwarded,
      Bool.false_eq_true, if_false]
    split <;> rfl

theorem proxyRequest_of_do_ok (env : Env) (fs : Firestore) (c : Context)
    (doc : DocumentSnapshot) (resp : Response) (w1 : ResponseWriter)
    (hget : fs.Get (c.Param "id") = .ok doc)
    (hnew : env.NewRequestErr c.Request.Method (doc.decoded.URL ++ c.Param "path") = false)
    (hdo : env.Do (forwarded env c (doc.decoded.URL ++ c.Param "path")) = some resp)
    (hcopy : ioCopy (ResponseWriter.WriteHeader { c.Writer with
        header := copyHeader env.CanonicalMIMEHeaderKey resp.Header c.Writer.header }
        resp.StatusCode) resp.Body.chunks = (w1, none)) :
    proxyRequest env fs c
      = ⟨{ c with Writer := w1 },
          [.newRequest c.Request.Method (doc.decoded.URL ++ c.Param "path"),
            .clientDo (forwarded env c (doc.decoded.URL ++ c.Param "path"))],
          if resp.Body.err then ["Failed to write response body"] else [], false⟩ := by
  simp only [forwarded] at hdo
  simp only [proxyRequest, hget, NewRequest, hnew, DocumentSnapshot.DataTo, hdo, forwarded,
    Bool.false_eq_true, if_false, hcopy]

/-! ## The header copy loops -/

theorem Header.index_of_not_mem (h : Header) (k : GoString) (hk : k ∉ Header.keys h) :
    Header.index h k = [] := by
  induction h with
  | nil => rfl
  | cons e t ih =>
    obtain ⟨k0, vs⟩ := e
    simp only [Header.keys, List.map_cons, List.mem_cons, not_or] at hk
    have hne : ¬ k0 = k := fun h => hk.1 h.symm
    simp only [Header.index, hne, if_false]
    exact ih hk.2

theorem Header.push_of_not_mem (acc : Header) (k v : GoString) (hk : k ∉ Header.keys acc) :
    Header.push acc k v = acc ++ [(k, [v])] := by
  induction acc with
  | nil => rfl
  | cons e t ih =>
    obtain ⟨k0, vs⟩ := e
    simp only [Header.keys, List.map_cons, List.mem_cons, not_or] at hk
    have hne : ¬ k0 = k := fun h => hk.1 h.symm
    simp only [Header.push, hne, if_false, List.cons_append]
    rw [ih hk.2]

theorem Header.push_snoc (acc : Header) (k v : GoString) (ws : List GoString)
    (hk : k ∉ Header.keys acc) :
    Header.push (acc ++ [(k, ws)]) k v = acc ++ [(k, ws ++ [v])] := by
  induction acc with
  | nil => simp [Header.push]
  | cons e t ih =>
    obtain ⟨k0, vs⟩ := e
    simp only [Header.keys, List.map_cons, List.mem_cons, not_or] at hk
    have hne : ¬ k0 = k := fun h => hk.1 h.symm
    rw [List.cons_append]
    simp only [Header.push, hne, if_false]
    rw [ih hk.2, List.cons_append]

theorem Header.foldl_push_snoc (acc : Header) (k : GoString) (hk : k ∉ Header.keys acc)
    (vs : List GoString) : ∀ ws : List GoString,
    vs.foldl (fun a v => Header.push a k v) (acc ++ [(k, ws)]) = acc ++ [(k, ws ++ vs)] := by
  induction vs with
  | nil => intro ws; simp
  | cons v t ih =>
    intro ws
    simp only [List.foldl_cons]
    rw [Header.push_snoc acc k v ws hk, ih (ws ++ [v])]
    simp

theorem Header.foldl_push_fresh (acc : Header) (k : GoString) (hk : k ∉ Header.keys acc)
    (vs : List GoString) :
    vs.foldl (fun a v => Header.push a k v) acc
      = if vs.isEmpty then acc else acc ++ [(k, vs)] := by
  cases vs with
  | nil => rfl
  | cons v t =>
    simp only [List.foldl_cons, List.isEmpty_cons, Bool.false_eq_true, if_false]
    rw [Header.push_of_not_mem acc k v hk, Header.foldl_push_snoc acc k hk t [v]]
    rfl

/-- Copying a map with canonical names onto a map that has none of them appends its
entries, in the order visited, except the names that carry no value. -/
theorem copyHeader_canonical (canon : GoString → GoString) (src : Header) :
    ∀ acc : Header, (∀ k ∈ Header.keys src, canon k = k) → (Header.keys src).Nodup →
      (∀ k ∈ Header.keys src, k ∉ Header.keys acc) →
      copyHeader canon src acc = acc ++ src.filter (fun kv => !kv.2.isEmpty) := by
  induction src with
  | nil => intro acc _ _ _; simp [copyHeader]
  | cons e t ih =>
    intro acc hcanon hnodup hdisj
    obtain ⟨k0, vs⟩ := e
    simp only [Header.keys, List.map_cons, List.nodup_cons] at hnodup
    have hk0 : canon k0 = k0 := hcanon k0 (by simp [Header.keys])
    have hk0acc : k0 ∉ Header.keys acc := hdisj k0 (by simp [Header.keys])
    have hstep : copyHeader canon ((k0, vs) :: t) acc
        = copyHeader canon t (vs.foldl (fun a v => Header.push a k0 v) acc) := by
      simp [copyHeader, Header.Add, hk0]
    rw [hstep, Header.foldl_push_fresh acc k0 hk0acc vs]
    have hcanon1 : ∀ k ∈ Header.keys t, canon k = k := fun k hk =>
      hcanon k (by simp only [Header.keys, List.map_cons, List.mem_cons]; exact Or.inr hk)
    have hdisj1 : ∀ k ∈ Header.keys t, k ∉ Header.keys acc := fun k hk =>
      hdisj k (by simp only [Header.keys, List.map_cons, List.mem_cons]; exact Or.inr hk)
    cases hvs : vs.isEmpty with
    | true =>
      simp only [if_true]
      rw [ih acc hcanon1 hnodup.2 hdisj1]
      simp [List.filter_cons, hvs]
    | false =>
      simp only [Bool.false_eq_true, if_false]
      rw [ih (acc ++ [(k0, vs)]) hcanon1 hnodup.2]
      · simp [List.filter_cons, hvs]
      · intro k hk hmem
        simp only [Header.keys, List.map_append, List.map_cons, List.map_nil, List.mem_append,
          List.mem_singleton] at hmem
        rcases hmem with hmem | hmem
        · exact hdisj1 k hk hmem
        · subst hmem; exact hnodup.1 hk

theorem Header.index_filter_nonempty (h : Header) (hnodup : (Header.keys h).Nodup)
    (k : GoString) :
    Header.index (h.filter (fun kv => !kv.2.isEmpty)) k = Header.index h k := by
  induction h with
  | nil => rfl
  | cons e t ih =>
    obtain ⟨k0, vs⟩ := e
    simp only [Header.keys, List.map_cons, List.nodup_cons] at hnodup
    cases vs with
    | nil =>
      simp only [List.filter_cons, List.isEmpty_nil, Bool.not_true, Bool.false_eq_true,
        if_false, Header.index]
      rw [ih hnodup.2]
      by_cases hk : k0 = k
      · subst hk
        simp only [if_true]
        exact Header.index_of_not_mem t k0 hnodup.1
      · simp [hk]
    | cons v vs =>
      simp only [List.filter_cons, List.isEmpty_cons, Bool.not_false, if_true, Header.index]
      rw [ih hnodup.2]

theorem Header.index_push_self (h : Header) (k v : GoString) :
    Header.index (Header.push h k v) k = Header.index h k ++ [v] := by
  induction h with
  | nil => simp [Header.push, Header.index]
  | cons e t ih =>
    obtain ⟨k0, vs⟩ := e
    by_cases hk : k0 = k
    · simp [Header.push, Header.index, hk]
    · simp [Header.push, Header.index, hk, ih]

theorem Header.index_push_other (h : Header) (k k1 v : GoString) (hne : k1 ≠ k) :
    Header.index (Header.push h k v) k1 = Header.index h k1 := by
  induction h with
  | nil =>
    have : ¬ k = k1 := fun h => hne h.symm
    simp [Header.push, Header.index, this]
  | cons e t ih =>
    obtain ⟨k0, vs⟩ := e
    by_cases hk : k0 = k
    · subst hk
      have : ¬ k0 = k1 := fun h => hne h.symm
      simp [Header.push, Header.index, this]
    · by_cases hk1 : k0 = k1
      · subst hk1
        simp [Header.push, Header.index, hne]
      · simp [Header.push, Header.index, hk, hk1, ih]

theorem Header.index_push_extends (h : Header) (k k1 v : GoString) :
    Header.index h k1 <+: Header.index (Header.push h k v) k1 := by
  by_cases hk : k1 = k
  · subst hk
    rw [Header.index_push_self]
    exact List.prefix_append _ _
  · rw [Header.index_push_other h k k1 v hk]

theorem Header.index_foldl_self (k : GoString) (vs : List GoString) : ∀ h : Header,
    Header.index (vs.foldl (fun a v => Header.push a k v) h) k = Header.index h k ++ vs := by
  induction vs with
  | nil => intro h; simp
  | cons v t ih =>
    intro h
    simp only [List.foldl_cons]
    rw [ih, Header.index_push_self]
    simp

theorem Header.index_foldl_extends (k k1 : GoString) (vs : List GoString) : ∀ h : Header,
    Header.index h k1 <+: Header.index (vs.foldl (fun a v => Header.push a k v) h) k1 := by
  induction vs with
  | nil => intro h; exact List.prefix_refl _
  | cons v t ih =>
    intro h
    simp only [List.foldl_cons]
    exact (Header.index_push_extends h k k1 v).trans (ih _)

theorem copyHeader_cons (canon : GoString → GoString) (e : GoString × List GoString)
    (t dst : Header) :
    copyHeader canon (e :: t) dst
      = copyHeader canon t (e.2.foldl (fun a v => Header.push a (canon e.1) v) dst) := by
  simp [copyHeader, Header.Add]

/-- The copy loop only ever extends the values of a name. -/
theorem copyHeader_index_extends (canon : GoString → GoString) (k1 : GoString) (src : Header) :
    ∀ dst : Header, Header.index dst k1 <+: Header.index (copyHeader canon src dst) k1 := by
  induction src with
  | nil => intro dst; exact List.prefix_refl _
  | cons e t ih =>
    intro dst
    rw [copyHeader_cons]
    exact (Header.index_foldl_extends (canon e.1) k1 e.2 dst).trans (ih _)

/-- After the copy loop, the values of every copied name are found, together and in their
order, under its canonical name. -/
theorem copyHeader_index_contains (canon : GoString → GoString) (src : Header) :
    ∀ dst : Header, ∀ kv ∈ src,
      kv.2 <:+: Header.index (copyHeader canon src dst) (canon kv.1) := by
  induction src with
  | nil => intro dst kv hkv; cases hkv
  | cons e t ih =>
    intro dst kv hkv
    rw [copyHeader_cons]
    rcases List.mem_cons.1 hkv with h | h
    · subst h
      have hsuf : kv.2 <:+ Header.index
          (kv.2.foldl (fun a v => Header.push a (canon kv.1) v) dst) (canon kv.1) := by
        rw [Header.index_foldl_self]
        exact List.suffix_append _ _
      exact hsuf.isInfix.trans (copyHeader_index_extends canon (canon kv.1) t _).isInfix
    · exact ih _ kv h

/-- With a pending status that net/http accepts, and bytes only when the status allows a
body, the copy writes every chunk. -/
theorem ioCopy_of_valid_status (chunks : List GoString) : ∀ w : ResponseWriter,
    100 ≤ w.status → w.status ≤ 999 →
    (bodyAllowedForStatus w.status = true ∨ chunks.flatten = []) →
    ioCopy w chunks = ({ w with body := w.body ++ chunks.flatten }, none) := by
  induction chunks with
  | nil => intro w _ _ _; simp [ioCopy]
  | cons ch t ih =>
    intro w hlo hhi hbody
    by_cases hch : ch = []
    · subst hch
      have hbody1 : bodyAllowedForStatus w.status = true ∨ t.flatten = [] := by
        simpa using hbody
      simp [ioCopy, ih w hlo hhi hbody1]
    · have hallowed : bodyAllowedForStatus w.status = true := by
        rcases hbody with h | h
        · exact h
        · simp [hch] at h
      have hw : w.Write ch = .ok { w with body := w.body ++ ch } := by
        have : ¬ (w.status < 100 ∨ 999 < w.status) := by omega
        simp [ResponseWriter.Write, this, hallowed]
      simp only [ioCopy, hch, if_false, hw]
      rw [ih { w with body := w.body ++ ch } hlo hhi (Or.inl hallowed)]
      simp

/-- C1, as stated, fails: the mapping of `svc1` resolves, yet for the sub-path `/a\nb`
(the inbound path `/svc1/a%0Ab`, which the router hands over decoded) `http.NewRequest`
rejects the target and `proxyRequest` issues no outbound request; it answers 500 with the
body `{"error":"Failed to create request"}`. -/
theorem proxyRequest_no_outbound_on_bad_target :
    svc1Store.Get ((proxyContext (plainRequest (str "GET") (str "/svc1/a\nb") [])
        (str "svc1") (str "/a\nb")).Param "id")
      = .ok ⟨{ ID := str "svc1", URL := str "http://backend.internal:9000" }, false⟩
    ∧ outbound (proxyRequest (goEnv okBackend) svc1Store
        (proxyContext (plainRequest (str "GET") (str "/svc1/a\nb") [])
          (str "svc1") (str "/a\nb"))).events = []
    ∧ (proxyRequest (goEnv okBackend) svc1Store
        (proxyContext (plainRequest (str "GET") (str "/svc1/a\nb") [])
          (str "svc1") (str "/a\nb"))).c.Writer.status = 500
    ∧ (proxyRequest (goEnv okBackend) svc1Store
        (proxyContext (plainRequest (str "GET") (str "/svc1/a\nb") [])
          (str "svc1") (str "/a\nb"))).c.Writer.body
      = str "\x7b\"error\":\"Failed to create request\"\x7d" := by
  decide

/-- C1, amended: when the lookup of the identifier succeeds with a mapping whose url is `u`,
then for every inbound method `m` and sub-path `p`: if `http.NewRequest` accepts `m` and
`u ++ p`, `proxyRequest` issues exactly one outbound request, with method `m` and the URL
`u ++ p`, the literal concatenation; if `http.NewRequest` rejects them it issues none, and
the context is the inbound context with the response 500
`{"error": "Failed to create request"}` and nothing else written to it. -/
theorem proxyRequest_forwards_literal_target (env : Env) (fs : Firestore) (c : Context)
    (doc : DocumentSnapshot) (u : GoString)
    (hget : fs.Get (c.Param "id") = .ok doc) (hu : doc.decoded.URL = u) :
    (env.NewRequestErr c.Request.Method (u ++ c.Param "path") = false →
      ∃ req, outbound (proxyRequest env fs c).events = [req]
        ∧ req.Method = c.Request.Method ∧ req.URL = u ++ c.Param "path")
    ∧ (env.NewRequestErr c.Request.Method (u ++ c.Param "path") = true →
      outbound (proxyRequest env fs c).events = []
        ∧ (proxyRequest env fs c).c.Writer.status = 500
        ∧ (proxyRequest env fs c).c.Writer.body
            = c.Writer.body ++ env.Marshal (.H "error" (str "Failed to create request"))
        ∧ (proxyRequest env fs c).c
            = c.JSON env 500 (.H "error" (str "Failed to create request"))) := by
  subst hu
  constructor
  · intro hnew
    refine ⟨forwarded env c (doc.decoded.URL ++ c.Param "path"), ?_, rfl, rfl⟩
    rw [proxyRequest_events_of_newRequest_ok env fs c doc hget hnew]
    rfl
  · intro hnew
    rw [proxyRequest_of_newRequest_error env fs c doc hget hnew]
    exact ⟨rfl, rfl, rfl, rfl⟩

/-- Witness of C1 (amended): `GET /svc1/api` with `svc1 ↦ http://backend.internal:9000` is
forwarded; `GET /svc1/a%0Ab` is answered with 500 `{"error":"Failed to create request"}`. -/
theorem proxyRequest_forwards_literal_target_witness :
    (∃ req, outbound (proxyRequest (goEnv okBackend) svc1Store
        (proxyContext (plainRequest (str "GET") (str "/svc1/api") [])
          (str "svc1") (str "/api"))).events = [req]
      ∧ req.Method = str "GET" ∧ req.URL = str "http://backend.internal:9000" ++ str "/api")
    ∧ (proxyRequest (goEnv okBackend) svc1Store
        (proxyContext (plainRequest (str "GET") (str "/svc1/a\nb") [])
          (str "svc1") (str "/a\nb"))).c.Writer.body
      = str "\x7b\"error\":\"Failed to create request\"\x7d" :=
  ⟨(proxyRequest_forwards_literal_target (goEnv okBackend) svc1Store
      (proxyContext (plainRequest (str "GET") (str "/svc1/api") []) (str "svc1") (str "/api"))
      ⟨{ ID := str "svc1", URL := str "http://backend.internal:9000" }, false⟩
      (str "http://backend.internal:9000") (by decide) rfl).1 (by decide),
    ((proxyRequest_forwards_literal_target (goEnv okBackend) svc1Store
      (proxyContext (plainRequest (str "GET") (str "/svc1/a\nb") [])
        (str "svc1") (str "/a\nb"))
      ⟨{ ID := str "svc1", URL := str "http://backend.internal:9000" }, false⟩
      (str "http://backend.internal:9000") (by decide) rfl).2 (by decide)).2.2.1.trans
      (by decide)⟩

/-- C2: when the store lookup of the identifier returns an error, `proxyRequest` answers
with status 404 and the body `{"error": "Mapping not found"}`, and reaches neither
`http.NewRequest` nor `client.Do`: no outbound request is made. -/
theorem proxyRequest_unknown_id_not_found (env : Env) (fs : Firestore) (c : Context)
    (e : StoreError) (hget : fs.Get (c.Param "id") = .error e) :
    (proxyRequest env fs c).c.Writer.status = 404
    ∧ (proxyRequest env fs c).c.Writer.body
        = c.Writer.body ++ env.Marshal (.H "error" (str "Mapping not found"))
    ∧ (proxyRequest env fs c).events = []
    ∧ outbound (proxyRequest env fs c).events = [] := by
  rw [proxyRequest_of_get_error env fs c e hget]
  exact ⟨rfl, rfl, rfl, rfl⟩

/-- Witness of C2: `GET /nope/api` on a store that only knows `svc1`. -/
theorem proxyRequest_unknown_id_not_found_witness :
    (proxyRequest (goEnv okBackend) svc1Store
        (proxyContext (plainRequest (str "GET") (str "/nope/api") [])
          (str "nope") (str "/api"))).c.Writer.status = 404
    ∧ (proxyRequest (goEnv okBackend) svc1Store
        (proxyContext (plainRequest (str "GET") (str "/nope/api") [])
          (str "nope") (str "/api"))).c.Writer.body
        = (proxyContext (plainRequest (str "GET") (str "/nope/api") [])
            (str "nope") (str "/api")).Writer.body
          ++ (goEnv okBackend).Marshal (.H "error" (str "Mapping not found"))
    ∧ (proxyRequest (goEnv okBackend) svc1Store
        (proxyContext (plainRequest (str "GET") (str "/nope/api") [])
          (str "nope") (str "/api"))).events = []
    ∧ outbound (proxyRequest (goEnv okBackend) svc1Store
        (proxyContext (plainRequest (str "GET") (str "/nope/api") [])
          (str "nope") (str "/api"))).events = [] :=
  proxyRequest_unknown_id_not_found (goEnv okBackend) svc1Store
    (proxyContext (plainRequest (str "GET") (str "/nope/api") []) (str "nope") (str "/api"))
    .notFound (by decide)

/-- C3: when the inbound header map has canonical names (and, being a map, no name
twice), the request `proxyRequest` hands to `client.Do` carries the inbound header map:
under every name the same values in the same order (so two `Accept` values arrive as
two, in order), no name that the inbound map lacks, every inbound name that has a value;
when every inbound name has a value (as in every map net/http parses) the two maps are
equal entry by entry. -/
theorem proxyRequest_copies_request_headers (env : Env) (fs : Firestore) (c : Context)
    (doc : DocumentSnapshot) (hget : fs.Get (c.Param "id") = .ok doc)
    (hnew : env.NewRequestErr c.Request.Method (doc.decoded.URL ++ c.Param "path") = false)
    (hcanon : ∀ k ∈ Header.keys c.Request.Header, env.CanonicalMIMEHeaderKey k = k)
    (hmap : (Header.keys c.Request.Header).Nodup) :
    ∃ req, outbound (proxyRequest env fs c).events = [req]
      ∧ (∀ k, Header.index req.Header k = Header.index c.Request.Header k)
      ∧ (∀ k ∈ Header.keys req.Header, k ∈ Header.keys c.Request.Header)
      ∧ (∀ kv ∈ c.Request.Header, kv.2 ≠ [] → kv ∈ req.Header)
      ∧ ((∀ kv ∈ c.Request.Header, kv.2 ≠ []) → req.Header = c.Request.Header) := by
  have hcopy : (forwarded env c (doc.decoded.URL ++ c.Param "path")).Header
      = c.Request.Header.filter (fun kv => !kv.2.isEmpty) := by
    have := copyHeader_canonical env.CanonicalMIMEHeaderKey c.Request.Header [] hcanon hmap
      (fun k _ hk => by simp [Header.keys] at hk)
    simpa [forwarded] using this
  refine ⟨forwarded env c (doc.decoded.URL ++ c.Param "path"), ?_, ?_, ?_, ?_, ?_⟩
  · rw [proxyRequest_events_of_newRequest_ok env fs c doc hget hnew]
    rfl
  · intro k
    rw [hcopy]
    exact Header.index_filter_nonempty c.Request.Header hmap k
  · intro k hk
    rw [hcopy] at hk
    simp only [Header.keys, List.mem_map] at hk ⊢
    obtain ⟨kv, hkv, rfl⟩ := hk
    exact ⟨kv, (List.mem_filter.1 hkv).1, rfl⟩
  · intro kv hkv hne
    rw [hcopy]
    refine List.mem_filter.2 ⟨hkv, ?_⟩
    cases h : kv.2 with
    | nil => exact absurd h hne
    | cons v t => rfl
  · intro hall
    rw [hcopy]
    refine List.filter_eq_self.2 fun kv hkv => ?_
    cases h : kv.2 with
    | nil => exact absurd h (hall kv hkv)
    | cons v t => rfl

/-- Witness of C3: the two `Accept` values of `acceptTwice` reach the backend, in order. -/
theorem proxyRequest_copies_request_headers_witness :
    ∃ req, outbound (proxyRequest (goEnv okBackend) svc1Store
        (proxyContext acceptTwice (str "svc1") (str "/api"))).events = [req]
      ∧ Header.index req.Header (str "Accept") = [str "text/html", str "application/json"]
      ∧ req.Header = acceptTwice.Header := by
  obtain ⟨req, h1, h2, -, -, h5⟩ := proxyRequest_copies_request_headers (goEnv okBackend)
    svc1Store (proxyContext acceptTwice (str "svc1") (str "/api"))
    ⟨{ ID := str "svc1", URL := str "http://backend.internal:9000" }, false⟩
    (by decide) (by decide) (by decide) (by decide)
  exact ⟨req, h1, (h2 (str "Accept")).trans (by decide), h5 (by decide)⟩

/-- C4, as stated, fails.  A backend status `0` (the status line `HTTP/1.1 000`, which
`client.Do` accepts) is ignored by `WriteHeader`, and the caller gets 200 with the body; a
backend status `99` is refused when the first byte is written: the handler panics and no
body byte is relayed; the same holds for a status above 999; and for a status without
body, such as 101, the bytes the backend sends are not relayed: the write fails and is
logged. -/
theorem proxyRequest_status_not_relayed :
    (proxyRequest (goEnv (statusBackend 0)) svc1Store
        (proxyContext (plainRequest (str "GET") (str "/svc1/api") [])
          (str "svc1") (str "/api"))).c.Writer.status = 200
    ∧ (proxyRequest (goEnv (statusBackend 0)) svc1Store
        (proxyContext (plainRequest (str "GET") (str "/svc1/api") [])
          (str "svc1") (str "/api"))).c.Writer.body = str "ok"
    ∧ (proxyRequest (goEnv (statusBackend 99)) svc1Store
        (proxyContext (plainRequest (str "GET") (str "/svc1/api") [])
          (str "svc1") (str "/api"))).panicked = true
    ∧ (proxyRequest (goEnv (statusBackend 99)) svc1Store
        (proxyContext (plainRequest (str "GET") (str "/svc1/api") [])
          (str "svc1") (str "/api"))).c.Writer.body = []
    ∧ (proxyRequest (goEnv (statusBackend 1000)) svc1Store
        (proxyContext (plainRequest (str "GET") (str "/svc1/api") [])
          (str "svc1") (str "/api"))).panicked = true
    ∧ (proxyRequest (goEnv upgradeBackend) svc1Store
        (proxyContext (plainRequest (str "GET") (str "/svc1/api") [])
          (str "svc1") (str "/api"))).c.Writer.body = []
    ∧ (proxyRequest (goEnv upgradeBackend) svc1Store
        (proxyContext (plainRequest (str "GET") (str "/svc1/api") [])
          (str "svc1") (str "/api"))).log = ["Failed to write response body"] := by
  decide

/-- C4, amended: when the outbound call succeeds with a status `s` between 100 and 999,
header map `H` and a body whose bytes `b` (any number, also none, and none when `s` allows
no body: 1xx, 204, 304) are read without error, the response written to the inbound caller
has status `s`, holds for every name of `H` all of its values, together and in order,
under the canonical form of the name, and its body is what the writer held before
(nothing, for a fresh writer) followed by exactly the bytes `b`; the handler returns
without a panic and logs nothing. -/
theorem proxyRequest_relays_response (env : Env) (fs : Firestore) (c : Context)
    (doc : DocumentSnapshot) (resp : Response) (hget : fs.Get (c.Param "id") = .ok doc)
    (hnew : env.NewRequestErr c.Request.Method (doc.decoded.URL ++ c.Param "path") = false)
    (hdo : env.Do (forwarded env c (doc.decoded.URL ++ c.Param "path")) = some resp)
    (hread : resp.Body.err = false)
    (hlo : 100 ≤ resp.StatusCode) (hhi : resp.StatusCode ≤ 999)
    (hbody : bodyAllowedForStatus resp.StatusCode = true ∨ resp.Body.chunks.flatten = []) :
    (proxyRequest env fs c).c.Writer.status = resp.StatusCode
    ∧ (∀ kv ∈ resp.Header,
        kv.2 <:+: Header.index (proxyRequest env fs c).c.Writer.header
          (env.CanonicalMIMEHeaderKey kv.1))
    ∧ (proxyRequest env fs c).c.Writer.body = c.Writer.body ++ resp.Body.chunks.flatten
    ∧ (proxyRequest env fs c).log = []
    ∧ (proxyRequest env fs c).panicked = false := by
  have hpos : (0 : Int) < resp.StatusCode := by omega
  have hwh : ResponseWriter.WriteHeader { c.Writer with
        header := copyHeader env.CanonicalMIMEHeaderKey resp.Header c.Writer.header }
        resp.StatusCode
      = { status := resp.StatusCode,
          header := copyHeader env.CanonicalMIMEHeaderKey resp.Header c.Writer.header,
          body := c.Writer.body } := by
    simp [ResponseWriter.WriteHeader, hpos]
  have hcopy : ioCopy (ResponseWriter.WriteHeader { c.Writer with
        header := copyHeader env.CanonicalMIMEHeaderKey resp.Header c.Writer.header }
        resp.StatusCode) resp.Body.chunks
      = ({ status := resp.StatusCode,
           header := copyHeader env.CanonicalMIMEHeaderKey resp.Header c.Writer.header,
           body := c.Writer.body ++ resp.Body.chunks.flatten }, none) := by
    rw [hwh]
    exact ioCopy_of_valid_status resp.Body.chunks _ hlo hhi hbody
  rw [proxyRequest_of_do_ok env fs c doc resp _ hget hnew hdo hcopy]
  refine ⟨rfl, ?_, rfl, by simp [hread], rfl⟩
  intro kv hkv
  exact copyHeader_index_contains env.CanonicalMIMEHeaderKey resp.Header c.Writer.header kv hkv

/-- Witness of C4 (amended): status 201, both cookies in order and the five bytes
`hello`. -/
theorem proxyRequest_relays_response_witness :
    (proxyRequest (goEnv cookieBackend) svc1Store
        (proxyContext acceptTwice (str "svc1") (str "/api"))).c.Writer.status = 201
    ∧ [str "a=1", str "b=2"] <:+: Header.index (proxyRequest (goEnv cookieBackend) svc1Store
        (proxyContext acceptTwice (str "svc1") (str "/api"))).c.Writer.header
          (str "Set-Cookie")
    ∧ (proxyRequest (goEnv cookieBackend) svc1Store
        (proxyContext acceptTwice (str "svc1") (str "/api"))).c.Writer.body = str "hello" := by
  obtain ⟨h1, h2, h3, -, -⟩ := proxyRequest_relays_response (goEnv cookieBackend) svc1Store
    (proxyContext acceptTwice (str "svc1") (str "/api"))
    ⟨{ ID := str "svc1", URL := str "http://backend.internal:9000" }, false⟩
    { StatusCode := 201, Header := [(str "Set-Cookie", [str "a=1", str "b=2"])],
      Body := { chunks := [str "he", str "llo"], err := false } }
    (by decide) (by decide) rfl rfl (by decide) (by decide) (by decide)
  exact ⟨h1, h2 (str "Set-Cookie", [str "a=1", str "b=2"]) (by decide), h3.trans (by decide)⟩

/-- C5, as stated, fails on its own scenario: with `svc1 ↦ http://backend.internal:9000`
the inbound `GET /svc1/api/v1/items?x=1` (path `/svc1/api/v1/items`, raw query `x=1`,
parameters `svc1` and `/api/v1/items`) is forwarded as
`GET http://backend.internal:9000/api/v1/items`; the query `x=1` is not in the target. -/
theorem proxyRequest_scenario_drops_query :
    (outbound (proxyRequest (goEnv okBackend) svc1Store
        (proxyContext (plainRequest (str "GET") (str "/svc1/api/v1/items") (str "x=1"))
          (str "svc1") (str "/api/v1/items"))).events).map
      (fun req => (req.Method, req.URL))
      = [(str "GET", str "http://backend.internal:9000/api/v1/items")]
    ∧ str "http://backend.internal:9000/api/v1/items"
      ≠ str "http://backend.internal:9000/api/v1/items?x=1" := by
  decide

/-- C5, amended: the query string of the inbound request is not forwarded.  Whenever
`proxyRequest` runs for an inbound URL with path `/{id}{p}` and any raw query `q`, with the
route parameters `id` and `path` bound to `id` and `p`, the mapping of `id` resolving to
`url` and `http.NewRequest` accepting the target, the one outbound request has the inbound
method and the URL `url ++ p`, whatever `q` is, which is never `url ++ p ++ "?" ++ q`. -/
theorem proxyRequest_target_ignores_query (env : Env) (fs : Firestore) (c : Context)
    (id p : GoString) (doc : DocumentSnapshot)
    (hpath : c.Request.URL.Path = str "/" ++ id ++ p)
    (hid : c.Param "id" = id) (hp : c.Param "path" = p) (hget : fs.Get id = .ok doc)
    (hnew : env.NewRequestErr c.Request.Method (doc.decoded.URL ++ p) = false) :
    ∃ req, outbound (proxyRequest env fs c).events = [req]
      ∧ req.Method = c.Request.Method ∧ req.URL = doc.decoded.URL ++ p
      ∧ req.URL ≠ doc.decoded.URL ++ p ++ str "?" ++ c.Request.URL.RawQuery := by
  subst hid hp
  refine ⟨forwarded env c (doc.decoded.URL ++ c.Param "path"), ?_, rfl, rfl, ?_⟩
  · rw [proxyRequest_events_of_newRequest_ok env fs c doc hget hnew]
    rfl
  · have hq : str "?" = [63] := by decide
    simp [forwarded, hq, List.append_assoc]

/-- Witness of C5 (amended): `POST /svc1/api?x=1` is forwarded to
`http://backend.internal:9000/api`. -/
theorem proxyRequest_target_ignores_query_witness :
    ∃ req, outbound (proxyRequest (goEnv okBackend) svc1Store
        (proxyContext (plainRequest (str "POST") (str "/svc1/api") (str "x=1"))
          (str "svc1") (str "/api"))).events = [req]
      ∧ req.Method = str "POST"
      ∧ req.URL = str "http://backend.internal:9000" ++ str "/api"
      ∧ req.URL ≠ str "http://backend.internal:9000" ++ str "/api" ++ str "?" ++ str "x=1" :=
  (proxyRequest_target_ignores_query (goEnv okBackend) svc1Store
    (proxyContext (plainRequest (str "POST") (str "/svc1/api") (str "x=1"))
      (str "svc1") (str "/api"))
    (str "svc1") (str "/api")
    ⟨{ ID := str "svc1", URL := str "http://backend.internal:9000" }, false⟩
    (by decide) (by decide) (by decide) (by decide) (by decide))

/-- C6, as stated, fails: the lookup of `svc1` returns a document on which `DataTo`
fails; `proxyRequest` does not check that error, builds a request for the bare sub-path
`/api` and calls `client.Do` with it; the answer is not the 404 of a failed resolution. -/
theorem proxyRequest_forwards_after_failed_dataTo :
    (illTypedStore.Get (str "svc1")).map (fun doc => doc.dataToErr) = .ok true
    ∧ (outbound (proxyRequest (goEnv downBackend) illTypedStore
        (proxyContext (plainRequest (str "GET") (str "/svc1/api") [])
          (str "svc1") (str "/api"))).events).map (fun req => (req.Method, req.URL))
      = [(str "GET", str "/api")]
    ∧ (proxyRequest (goEnv downBackend) illTypedStore
        (proxyContext (plainRequest (str "GET") (str "/svc1/api") [])
          (str "svc1") (str "/api"))).c.Writer.status = 500
    ∧ (proxyRequest (goEnv downBackend) illTypedStore
        (proxyContext (plainRequest (str "GET") (str "/svc1/api") [])
          (str "svc1") (str "/api"))).c.Writer.body
      = str "\x7b\"error\":\"Failed to forward request\"\x7d" := by
  decide

/-- C6, amended: every failure of the store lookup yields the same 404 with no outbound
call: whether the record is missing or the store access fails, `Doc(id).Get` returns an
error and `proxyRequest` answers with status 404 and `Mapping not found`, reaching neither
`http.NewRequest` nor `client.Do`; the response is the same in both cases. -/
theorem proxyRequest_lookup_failure_unified (env : Env) (fs : Firestore) (c : Context)
    (h : fs.docs (c.Param "id") = none ∨ fs.rpcErr (c.Param "id") = true) :
    (∃ e, fs.Get (c.Param "id") = .error e)
    ∧ proxyRequest env fs c
        = ⟨c.JSON env 404 (.H "error" (str "Mapping not found")), [], [], false⟩
    ∧ (proxyRequest env fs c).c.Writer.status = 404
    ∧ outbound (proxyRequest env fs c).events = [] := by
  have hget : ∃ e, fs.Get (c.Param "id") = .error e := by
    cases hrpc : fs.rpcErr (c.Param "id") with
    | true => exact ⟨.unavailable, by simp [Firestore.Get, hrpc]⟩
    | false =>
      rcases h with h | h
      · exact ⟨.notFound, by simp [Firestore.Get, hrpc, h]⟩
      · rw [hrpc] at h; cases h
  obtain ⟨e, he⟩ := hget
  refine ⟨⟨e, he⟩, proxyRequest_of_get_error env fs c e he, ?_, ?_⟩
  · rw [proxyRequest_of_get_error env fs c e he]; rfl
  · rw [proxyRequest_of_get_error env fs c e he]; rfl

/-- Witness of C6 (amended): `GET /svc1/api` while the store cannot be reached, although
it holds `svc1`. -/
theorem proxyRequest_lookup_failure_unified_witness :
    (proxyRequest (goEnv okBackend) downStore
        (proxyContext (plainRequest (str "GET") (str "/svc1/api") [])
          (str "svc1") (str "/api"))).c.Writer.status = 404
    ∧ outbound (proxyRequest (goEnv okBackend) downStore
        (proxyContext (plainRequest (str "GET") (str "/svc1/api") [])
          (str "svc1") (str "/api"))).events = [] :=
  (proxyRequest_lookup_failure_unified (goEnv okBackend) downStore
    (proxyContext (plainRequest (str "GET") (str "/svc1/api") []) (str "svc1") (str "/api"))
    (Or.inr (by decide))).2.2

/-- C7: when the mapping resolves and `client.Do` returns an error, `proxyRequest` answers
500 with the body `{"error": "Failed to forward request"}`; `client.Do` was called exactly
once; and the context is the inbound context with that error response and nothing else
written to it: no backend status, header or body byte. -/
theorem proxyRequest_forward_failed (env : Env) (fs : Firestore) (c : Context)
    (doc : DocumentSnapshot) (hget : fs.Get (c.Param "id") = .ok doc)
    (hnew : env.NewRequestErr c.Request.Method (doc.decoded.URL ++ c.Param "path") = false)
    (hdo : env.Do (forwarded env c (doc.decoded.URL ++ c.Param "path")) = none) :
    (proxyRequest env fs c).c.Writer.status = 500
    ∧ (proxyRequest env fs c).c.Writer.body
        = c.Writer.body ++ env.Marshal (.H "error" (str "Failed to forward request"))
    ∧ outbound (proxyRequest env fs c).events
        = [forwarded env c (doc.decoded.URL ++ c.Param "path")]
    ∧ (proxyRequest env fs c).c
        = c.JSON env 500 (.H "error" (str "Failed to forward request")) := by
  rw [proxyRequest_of_do_error env fs c doc hget hnew hdo]
  exact ⟨rfl, rfl, rfl, rfl⟩

/-- Witness of C7: `GET /svc1/api` while the backend cannot be reached. -/
theorem proxyRequest_forward_failed_witness :
    (proxyRequest (goEnv downBackend) svc1Store
        (proxyContext (plainRequest (str "GET") (str "/svc1/api") [])
          (str "svc1") (str "/api"))).c.Writer.status = 500
    ∧ (outbound (proxyRequest (goEnv downBackend) svc1Store
        (proxyContext (plainRequest (str "GET") (str "/svc1/api") [])
          (str "svc1") (str "/api"))).events).length = 1
    ∧ (proxyRequest (goEnv downBackend) svc1Store
        (proxyContext (plainRequest (str "GET") (str "/svc1/api") [])
          (str "svc1") (str "/api"))).c.Writer.header
      = [(str "Content-Type", [str "application/json; charset=utf-8"])] := by
  obtain ⟨h1, -, h3, h4⟩ := proxyRequest_forward_failed (goEnv downBackend) svc1Store
    (proxyContext (plainRequest (str "GET") (str "/svc1/api") []) (str "svc1") (str "/api"))
    ⟨{ ID := str "svc1", URL := str "http://backend.internal:9000" }, false⟩
    (by decide) (by decide) rfl
  refine ⟨h1, ?_, ?_⟩
  · rw [h3]; rfl
  · rw [h4]; decide

/-! ## The admin operations and resolution -/

theorem proxyRequest_events_of_get_ok (env : Env) (fs : Firestore) (c : Context)
    (doc : DocumentSnapshot) (hget : fs.Get (c.Param "id") = .ok doc) :
    (proxyRequest env fs c).events
      = if env.NewRequestErr c.Request.Method (doc.decoded.URL ++ c.Param "path") then
          [.newRequest c.Request.Method (doc.decoded.URL ++ c.Param "path")]
        else
          [.newRequest c.Request.Method (doc.decoded.URL ++ c.Param "path"),
            .clientDo (forwarded env c (doc.decoded.URL ++ c.Param "path"))] := by
  cases hnew : env.NewRequestErr c.Request.Method (doc.decoded.URL ++ c.Param "path") with
  | true => rw [proxyRequest_of_newRequest_error env fs c doc hget hnew]; rfl
  | false => rw [proxyRequest_events_of_newRequest_ok env fs c doc hget hnew]; rfl

theorem deleteMappingAPI_ok (env : Env) (fs : Firestore) (c : Context)
    (hok : (deleteMappingAPI env fs c).2.Writer.status = 200) :
    (deleteMappingAPI env fs c).1.Get (c.Param "id") = .error .notFound := by
  cases hrpc : fs.rpcErr (c.Param "id") with
  | true =>
    simp [deleteMappingAPI, Firestore.Delete, hrpc, Context.JSON] at hok
  | false =>
    simp [deleteMappingAPI, Firestore.Delete, Firestore.Get, hrpc]

theorem updateMappingAPI_ok (env : Env) (fs : Firestore) (c : Context) (m : ProxyMapping)
    (hbind : env.ShouldBindJSON c.Request.Body = .ok m)
    (hok : (updateMappingAPI env fs c).2.Writer.status = 200) :
    (updateMappingAPI env fs c).1.Get (c.Param "id") = .ok ⟨m, false⟩ := by
  cases hrpc : fs.rpcErr (c.Param "id") with
  | true =>
    simp [updateMappingAPI, hbind, Firestore.Set, hrpc, Context.JSON] at hok
  | false =>
    simp [updateMappingAPI, hbind, Firestore.Set, Firestore.Get, hrpc]

/-- C8: resolution reads the current store state.  First part: after `deleteMappingAPI`
for `id` has succeeded, on whatever store (so also one on which a proxied request to `id`
had succeeded), a proxied request to `id` answers 404 `Mapping not found` and makes no
client call.  Second part: after `createMappingAPI` with `{id, u1}` and then
`updateMappingAPI` of `id` with url `u2` have succeeded, a proxied request to `id` with
sub-path `p` builds its target from `u2`: the request it constructs is for `u2 ++ p`,
every outbound request it issues goes to `u2 ++ p` (exactly one when `http.NewRequest`
accepts the target), and none goes to `u1 ++ p` when `u1` differs from `u2`. -/
theorem proxyRequest_reads_current_store :
    (∀ (env : Env) (fs : Firestore) (cd cp : Context),
      (deleteMappingAPI env fs cd).2.Writer.status = 200 →
      cp.Param "id" = cd.Param "id" →
      (proxyRequest env (deleteMappingAPI env fs cd).1 cp).c.Writer.status = 404
      ∧ (proxyRequest env (deleteMappingAPI env fs cd).1 cp).c.Writer.body
          = cp.Writer.body ++ env.Marshal (.H "error" (str "Mapping not found"))
      ∧ (proxyRequest env (deleteMappingAPI env fs cd).1 cp).events = [])
    ∧ (∀ (env : Env) (fs : Firestore) (cc cu cp : Context) (m1 m2 : ProxyMapping),
      env.ShouldBindJSON cc.Request.Body = .ok m1 →
      env.ShouldBindJSON cu.Request.Body = .ok m2 →
      cu.Param "id" = m1.ID → cp.Param "id" = m1.ID →
      (createMappingAPI env fs cc).2.Writer.status = 200 →
      (updateMappingAPI env (createMappingAPI env fs cc).1 cu).2.Writer.status = 200 →
      (proxyRequest env (updateMappingAPI env (createMappingAPI env fs cc).1 cu).1 cp).events.head?
          = some (.newRequest cp.Request.Method (m2.URL ++ cp.Param "path"))
      ∧ (∀ req ∈ outbound (proxyRequest env
            (updateMappingAPI env (createMappingAPI env fs cc).1 cu).1 cp).events,
          req.URL = m2.URL ++ cp.Param "path"
          ∧ (m1.URL ≠ m2.URL → req.URL ≠ m1.URL ++ cp.Param "path"))
      ∧ (env.NewRequestErr cp.Request.Method (m2.URL ++ cp.Param "path") = false →
          outbound (proxyRequest env
            (updateMappingAPI env (createMappingAPI env fs cc).1 cu).1 cp).events
            = [forwarded env cp (m2.URL ++ cp.Param "path")])) := by
  constructor
  · intro env fs cd cp hok hid
    have hget := deleteMappingAPI_ok env fs cd hok
    rw [← hid] at hget
    rw [proxyRequest_of_get_error env _ cp _ hget]
    exact ⟨rfl, rfl, rfl⟩
  · intro env fs cc cu cp m1 m2 hb1 hb2 hidu hidp hok1 hok2
    have hget := updateMappingAPI_ok env _ cu m2 hb2 hok2
    rw [hidu, ← hidp] at hget
    have hev := proxyRequest_events_of_get_ok env _ cp _ hget
    simp only at hev
    rw [hev]
    cases hnew : env.NewRequestErr cp.Request.Method (m2.URL ++ cp.Param "path") with
    | true => simp [outbound]
    | false =>
      simp only [Bool.false_eq_true, if_false, List.head?_cons, outbound, List.mem_singleton,
        forall_eq, true_and, forall_const]
      refine ⟨⟨rfl, ?_⟩, trivial⟩
      intro hne h
      exact hne (List.append_cancel_right h).symm

/-- Witness of C8.  With `svc1` in the store a proxied `GET /svc1/api` answers 200; after
`DELETE /admin/mappings/svc1` the same request answers 404 and calls nothing.  After
creating `svc2 ↦ http://old.internal` and updating it to `http://new.internal`, the
proxied `GET /svc2/api` issues its one request to `http://new.internal/api`. -/
theorem proxyRequest_reads_current_store_witness :
    (proxyRequest (adminEnv okBackend) svc1Store
        (proxyContext (plainRequest (str "GET") (str "/svc1/api") [])
          (str "svc1") (str "/api"))).c.Writer.status = 200
    ∧ (proxyRequest (adminEnv okBackend)
        (deleteMappingAPI (adminEnv okBackend) svc1Store
          (adminContext (str "DELETE") (str "svc1") [] [])).1
        (proxyContext (plainRequest (str "GET") (str "/svc1/api") [])
          (str "svc1") (str "/api"))).c.Writer.status = 404
    ∧ (proxyRequest (adminEnv okBackend)
        (deleteMappingAPI (adminEnv okBackend) svc1Store
          (adminContext (str "DELETE") (str "svc1") [] [])).1
        (proxyContext (plainRequest (str "GET") (str "/svc1/api") [])
          (str "svc1") (str "/api"))).events = []
    ∧ outbound (proxyRequest (adminEnv okBackend)
        (updateMappingAPI (adminEnv okBackend)
          (createMappingAPI (adminEnv okBackend) svc1Store
            (adminContext (str "POST") [] (str "svc2") (str "http://old.internal"))).1
          (adminContext (str "PUT") (str "svc2") (str "svc2") (str "http://new.internal"))).1
        (proxyContext (plainRequest (str "GET") (str "/svc2/api") [])
          (str "svc2") (str "/api"))).events
      = [forwarded (adminEnv okBackend)
          (proxyContext (plainRequest (str "GET") (str "/svc2/api") [])
            (str "svc2") (str "/api"))
          (str "http://new.internal" ++ str "/api")] :=
  ⟨by decide,
    (proxyRequest_reads_current_store.1 (adminEnv okBackend) svc1Store
      (adminContext (str "DELETE") (str "svc1") [] [])
      (proxyContext (plainRequest (str "GET") (str "/svc1/api") []) (str "svc1") (str "/api"))
      (by decide) (by decide)).1,
    (proxyRequest_reads_current_store.1 (adminEnv okBackend) svc1Store
      (adminContext (str "DELETE") (str "svc1") [] [])
      (proxyContext (plainRequest (str "GET") (str "/svc1/api") []) (str "svc1") (str "/api"))
      (by decide) (by decide)).2.2,
    (proxyRequest_reads_current_store.2 (adminEnv okBackend) svc1Store
      (adminContext (str "POST") [] (str "svc2") (str "http://old.internal"))
      (adminContext (str "PUT") (str "svc2") (str "svc2") (str "http://new.internal"))
      (proxyContext (plainRequest (str "GET") (str "/svc2/api") []) (str "svc2") (str "/api"))
      { ID := str "svc2", URL := str "http://old.internal" }
      { ID := str "svc2", URL := str "http://new.internal" }
      (by decide) (by decide) (by decide) (by decide) (by decide) (by decide)).2.2
      (by decide)⟩

/-! ## The admin gate -/

theorem Cut_append (sep : Nat) (a b : GoString) (ha : sep ∉ a) :
    Cut sep (a ++ sep :: b) = some (a, b) := by
  induction a with
  | nil => simp [Cut]
  | cons x t ih =>
    simp only [List.mem_cons, not_or] at ha
    have hx : ¬ x = sep := fun h => ha.1 h.symm
    simp [Cut, hx, ih ha.2]

theorem Cut_some (sep : Nat) (s : GoString) : ∀ a b : GoString,
    Cut sep s = some (a, b) → s = a ++ sep :: b ∧ sep ∉ a := by
  induction s with
  | nil => intro a b h; simp [Cut] at h
  | cons x t ih =>
    intro a b h
    by_cases hx : x = sep
    · simp only [Cut, hx, if_true, Option.some.injEq, Prod.mk.injEq] at h
      obtain ⟨rfl, rfl⟩ := h
      simp [hx]
    · simp only [Cut, hx, if_false] at h
      cases hc : Cut sep t with
      | none => simp [hc] at h
      | some ab =>
        obtain ⟨a1, b1⟩ := ab
        simp only [hc, Option.some.injEq, Prod.mk.injEq] at h
        obtain ⟨rfl, rfl⟩ := h
        obtain ⟨ht, hmem⟩ := ih a1 b1 hc
        refine ⟨by rw [ht]; rfl, ?_⟩
        simp only [List.mem_cons, not_or]
        exact ⟨fun h => hx h.symm, hmem⟩

/-- The credential check on the decoded text: `SplitN(decoded, ":", 2)` has two pieces
equal to the user name and the password exactly when the text is the user name, a colon
and the password, and the user name has no colon. -/
theorem SplitN_credentials (decoded user pass : GoString) :
    ((SplitN decoded 58 2).length ≠ 2 ∨ (SplitN decoded 58 2).getD 0 [] ≠ user
        ∨ (SplitN decoded 58 2).getD 1 [] ≠ pass)
      ↔ ¬ (decoded = user ++ 58 :: pass ∧ 58 ∉ user) := by
  cases hc : Cut 58 decoded with
  | none =>
    have hs : SplitN decoded 58 2 = [decoded] := by simp [SplitN, hc]
    rw [hs]
    constructor
    · rintro - ⟨rfl, hu⟩
      rw [Cut_append 58 user pass hu] at hc
      cases hc
    · intro _; left; simp
  | some ab =>
    obtain ⟨a, b⟩ := ab
    have hs : SplitN decoded 58 2 = [a, b] := by simp [SplitN, hc]
    obtain ⟨hd, ha⟩ := Cut_some 58 decoded a b hc
    rw [hs]
    constructor
    · rintro h ⟨rfl, hu⟩
      rw [Cut_append 58 user pass hu] at hc
      simp only [Option.some.injEq, Prod.mk.injEq] at hc
      obtain ⟨rfl, rfl⟩ := hc
      simp at h
    · intro h
      by_contra hcon
      simp only [List.length_cons, List.length_nil, ne_eq, not_or, not_not] at hcon
      obtain ⟨-, h0, h1⟩ := hcon
      simp only [List.getD_cons_zero, List.getD_cons_succ] at h0 h1
      subst h0 h1
      exact h ⟨hd, ha⟩

theorem basicAuthMiddleware_accept (env : Env) (user pass : GoString) (next : Handler)
    (fs : Firestore) (c : Context)
    (h : c.GetHeader env (str "Authorization") ≠ []
      ∧ DecodeString (TrimPrefix (c.GetHeader env (str "Authorization")) (str "Basic "))
          = some (user ++ 58 :: pass)
      ∧ 58 ∉ user) :
    basicAuthMiddleware env user pass next fs c = next fs c := by
  obtain ⟨hne, hdec, hu⟩ := h
  have hsplit := (SplitN_credentials (user ++ 58 :: pass) user pass).not.2
    (not_not.2 ⟨rfl, hu⟩)
  simp only [basicAuthMiddleware, hne, if_false, hdec]
  rw [if_neg hsplit]

theorem basicAuthMiddleware_reject (env : Env) (user pass : GoString) (next : Handler)
    (fs : Firestore) (c : Context)
    (h : ¬ (c.GetHeader env (str "Authorization") ≠ []
      ∧ DecodeString (TrimPrefix (c.GetHeader env (str "Authorization")) (str "Basic "))
          = some (user ++ 58 :: pass)
      ∧ 58 ∉ user)) :
    (basicAuthMiddleware env user pass next fs c).1 = fs
      ∧ (basicAuthMiddleware env user pass next fs c).2.aborted = true
      ∧ (basicAuthMiddleware env user pass next fs c).2.Writer.status = 401
      ∧ ∀ next2 : Handler, basicAuthMiddleware env user pass next2 fs c
          = basicAuthMiddleware env user pass next fs c := by
  by_cases hne : c.GetHeader env (str "Authorization") = []
  · have heq : ∀ nx : Handler, basicAuthMiddleware env user pass nx fs c
        = (fs, ((c.Header env (str "WWW-Authenticate") (str "Basic realm=\"Restricted\"")).JSON
            env 401 (.H "error" (str "Unauthorized"))).Abort) := by
      intro nx; simp only [basicAuthMiddleware, hne, if_true]
    rw [heq next]
    exact ⟨rfl, rfl, rfl, heq⟩
  · cases hdec : DecodeString (TrimPrefix (c.GetHeader env (str "Authorization"))
        (str "Basic ")) with
    | none =>
      have heq : ∀ nx : Handler, basicAuthMiddleware env user pass nx fs c
          = (fs, (c.JSON env 401 (.H "error" (str "Invalid authentication"))).Abort) := by
        intro nx; simp only [basicAuthMiddleware, hne, if_false, hdec]
      rw [heq next]
      exact ⟨rfl, rfl, rfl, heq⟩
    | some decoded =>
      have hsplit : (SplitN decoded 58 2).length ≠ 2 ∨ (SplitN decoded 58 2).getD 0 [] ≠ user
          ∨ (SplitN decoded 58 2).getD 1 [] ≠ pass := by
        refine (SplitN_credentials decoded user pass).2 ?_
        rintro ⟨rfl, hu⟩
        exact h ⟨hne, hdec, hu⟩
      have heq : ∀ nx : Handler, basicAuthMiddleware env user pass nx fs c
          = (fs, ((c.Header env (str "WWW-Authenticate")
              (str "Basic realm=\"Restricted\"")).JSON
              env 401 (.H "error" (str "Unauthorized"))).Abort) := by
        intro nx
        simp only [basicAuthMiddleware, hne, if_false, hdec]
        rw [if_pos hsplit]
      rw [heq next]
      exact ⟨rfl, rfl, rfl, heq⟩

/-- C9 at the failing input: for `Authorization: Basic !!!`, whose payload is not base64,
the middleware answers 401 and aborts (the mapping `svc1` is still resolvable afterwards),
but the response carries no `WWW-Authenticate` header: its only header is the content type.
The branch for wrong credentials (`Basic YWRtaW46d3Jvbmc=`, that is `admin:wrong`) does
carry the challenge. -/
theorem basicAuthMiddleware_invalid_base64_no_challenge :
    (serveAdmin (goEnv downBackend) (str "admin") (str "secret")
        (deleteMappingAPI (goEnv downBackend)) svc1Store (authRequest (str "Basic !!!"))
        [("id", str "svc1")]).2.Writer.status = 401
    ∧ (serveAdmin (goEnv downBackend) (str "admin") (str "secret")
        (deleteMappingAPI (goEnv downBackend)) svc1Store (authRequest (str "Basic !!!"))
        [("id", str "svc1")]).2.aborted = true
    ∧ (serveAdmin (goEnv downBackend) (str "admin") (str "secret")
        (deleteMappingAPI (goEnv downBackend)) svc1Store (authRequest (str "Basic !!!"))
        [("id", str "svc1")]).1.Get (str "svc1")
      = .ok ⟨{ ID := str "svc1", URL := str "http://backend.internal:9000" }, false⟩
    ∧ (serveAdmin (goEnv downBackend) (str "admin") (str "secret")
        (deleteMappingAPI (goEnv downBackend)) svc1Store (authRequest (str "Basic !!!"))
        [("id", str "svc1")]).2.Writer.header
      = [(str "Content-Type", [str "application/json; charset=utf-8"])]
    ∧ Header.index (serveAdmin (goEnv downBackend) (str "admin") (str "secret")
        (deleteMappingAPI (goEnv downBackend)) svc1Store (authRequest (str "Basic !!!"))
        [("id", str "svc1")]).2.Writer.header
        (CanonicalMIMEHeaderKey (str "WWW-Authenticate")) = []
    ∧ Header.index (serveAdmin (goEnv downBackend) (str "admin") (str "secret")
        (deleteMappingAPI (goEnv downBackend)) svc1Store
        (authRequest (str "Basic YWRtaW46d3Jvbmc=")) [("id", str "svc1")]).2.Writer.header
        (CanonicalMIMEHeaderKey (str "WWW-Authenticate"))
      = [str "Basic realm=\"Restricted\""] := by
  decide

/-- C10: `basicAuthMiddleware` hands the request to the next handler exactly when the
`Authorization` header `h` is non-empty and `h`, with one leading `Basic ` removed when
present, is standard base64 that decodes to the user name, a colon and the password, the
user name having no colon (the split is at the first colon; the password may have colons).
In particular the bare base64 payload, without the `Basic ` scheme, is accepted, and with
both credentials empty the header `Og==` is accepted. -/
theorem basicAuthMiddleware_passes_iff :
    (∀ (env : Env) (adminUsername adminPassword : GoString) (fs : Firestore) (c : Context),
      (∀ next : Handler,
          basicAuthMiddleware env adminUsername adminPassword next fs c = next fs c)
        ↔ (c.GetHeader env (str "Authorization") ≠ []
            ∧ DecodeString (TrimPrefix (c.GetHeader env (str "Authorization")) (str "Basic "))
                = some (adminUsername ++ str ":" ++ adminPassword)
            ∧ 58 ∉ adminUsername))
    ∧ (∀ (env : Env) (adminUsername adminPassword : GoString) (next : Handler)
        (fs : Firestore) (c : Context),
      c.GetHeader env (str "Authorization") ≠ [] →
      HasPrefix (c.GetHeader env (str "Authorization")) (str "Basic ") = false →
      DecodeString (c.GetHeader env (str "Authorization"))
        = some (adminUsername ++ str ":" ++ adminPassword) →
      58 ∉ adminUsername →
      basicAuthMiddleware env adminUsername adminPassword next fs c = next fs c)
    ∧ (∀ (env : Env) (next : Handler) (fs : Firestore) (c : Context),
      c.GetHeader env (str "Authorization") = str "Og==" →
      basicAuthMiddleware env [] [] next fs c = next fs c) := by
  have hcolon : ∀ a b : GoString, a ++ str ":" ++ b = a ++ 58 :: b := by
    intro a b
    have : str ":" = [58] := by decide
    rw [this]; simp
  refine ⟨?_, ?_, ?_⟩
  · intro env user pass fs c
    rw [hcolon]
    constructor
    · intro hall
      by_contra hrej
      have hr := basicAuthMiddleware_reject env user pass
        (fun fs c => (fs, { c with aborted := false })) fs c hrej
      rw [hall] at hr
      exact Bool.noConfusion hr.2.1
    · intro h next
      exact basicAuthMiddleware_accept env user pass next fs c h
  · intro env user pass next fs c hne hpre hdec hu
    refine basicAuthMiddleware_accept env user pass next fs c ⟨hne, ?_, hu⟩
    rw [← hcolon, ← hdec]
    simp [TrimPrefix, hpre]
  · intro env next fs c hh
    refine basicAuthMiddleware_accept env [] [] next fs c ⟨?_, ?_, ?_⟩
    · rw [hh]; decide
    · rw [hh]; decide
    · simp

/-- Witness of C10: with the credentials `admin` and `s3:cret` the header
`Basic YWRtaW46czM6Y3JldA==` lets the request through to the handler. -/
theorem basicAuthMiddleware_passes_iff_witness :
    basicAuthMiddleware (goEnv downBackend) (str "admin") (str "s3:cret")
        (deleteMappingAPI (goEnv downBackend)) svc1Store
        (proxyContext (authRequest (str "Basic YWRtaW46czM6Y3JldA==")) (str "svc1") [])
      = deleteMappingAPI (goEnv downBackend) svc1Store
        (proxyContext (authRequest (str "Basic YWRtaW46czM6Y3JldA==")) (str "svc1") []) :=
  (basicAuthMiddleware_passes_iff.1 (goEnv downBackend) (str "admin") (str "s3:cret")
    svc1Store
    (proxyContext (authRequest (str "Basic YWRtaW46czM6Y3JldA==")) (str "svc1") [])).2
    ⟨by decide, by decide, by decide⟩ (deleteMappingAPI (goEnv downBackend))

end DynamicProxy
